import Mathlib

/-!
Verification of the sound-player core
(src/deps/juce/modules/juce_audio_utils/players/juce_SoundPlayer.cpp).

The file shallowly embeds the classes of that translation unit:

* `AudioBufferSource` — a positionable source serving samples from an
  in-memory buffer with an optional loop region and channel fan-out;
* the teardown order of `AudioSourceOwningTransportSource` and
  `AutoRemovingTransportSource` as an explicit event trace;
* the lifecycle of an `AutoRemovingTransportSource` session as a step
  function over poll/destruction events;
* the `SoundPlayer` facade's `play` overloads acting on an abstract
  manager state.

C++ `int`/`int64` values are modelled as `Int` (the quantities involved
stay far below any machine bound, so wrap-around never occurs on the
ranges the theorems speak about); C++ `%` on `Int` is truncated division
remainder, i.e. `Int.tmod`.  Sample values are modelled as `Int` — the
block-fill algorithm only moves samples and writes literal zeros, never
computes with them, so the carrier of the sample type is irrelevant to
every property proved here.
-/

namespace SoundPlayerModel

/-- A JUCE `AudioBuffer<float>`: a channel-count, a frame-count, and the
sample grid.  The grid is total over `Nat × Int` for convenience; the C++
object only defines samples for `channel < numChannels` and
`0 ≤ frame < numSamples`, and the block-fill model below records every
interval it actually reads so out-of-range access is visible. -/
structure AudioBuffer where
  numChannels : Nat
  numSamples : Nat
  sample : Nat → Int → Int

/-- JUCE `AudioSourceChannelInfo`: destination buffer plus the active
region `[startSample, startSample + numSamples)`. -/
structure AudioSourceChannelInfo where
  buffer : AudioBuffer
  startSample : Nat
  numSamples : Nat

/-- `AudioSourceChannelInfo::clearActiveBufferRegion()`: writes zero to
every channel of the destination over the active sample range. -/
def clearActiveBufferRegion (info : AudioSourceChannelInfo) : AudioBuffer :=
  { info.buffer with
    sample := fun ch j =>
      if ch < info.buffer.numChannels ∧ (info.startSample : Int) ≤ j ∧
          j < (info.startSample : Int) + (info.numSamples : Int) then 0
      else info.buffer.sample ch j }

/-- `AudioBuffer::copyFrom (destCh, destStart, src, srcCh, srcPos, n)`:
copies `n` samples of `src` channel `srcCh` starting at `srcPos` into
channel `destCh` of `dest` starting at `destStart`. -/
def copyFrom (dest : AudioBuffer) (destCh : Nat) (destStart : Nat)
    (src : AudioBuffer) (srcCh : Nat) (srcPos : Int) (n : Int) : AudioBuffer :=
  { dest with
    sample := fun ch j =>
      if ch = destCh ∧ (destStart : Int) ≤ j ∧ j < (destStart : Int) + n then
        src.sample srcCh (srcPos + (j - (destStart : Int)))
      else dest.sample ch j }

/-- The `for (int i = 0; i < maxOutChannels; ++i)` loop of
`AudioBufferSource::getNextAudioBlock`: channel `i` of the destination is
filled from channel `i % maxInChannels` of the source buffer.
`copyChannels dest … k` performs the copies for channels `0 … k-1` in
loop order. -/
def copyChannels (dest : AudioBuffer) (destStart : Nat) (src : AudioBuffer)
    (maxInChannels : Nat) (srcPos : Int) (n : Int) : Nat → AudioBuffer
  | 0 => dest
  | k + 1 =>
    copyFrom (copyChannels dest destStart src maxInChannels srcPos n k)
      k destStart src (k % maxInChannels) srcPos n

/-- State of an `AudioBufferSource` (fields of the C++ class). -/
structure AudioBufferSource where
  buffer : AudioBuffer
  position : Int
  looping : Bool
  playAcrossAllChannels : Bool
  loopStartPos : Int
  loopLen : Int

namespace AudioBufferSource

/-- The constructor: position `0`, looping off, loop region the whole
buffer. -/
def mk0 (audioBuffer : AudioBuffer) (playOnAllChannels : Bool) :
    AudioBufferSource :=
  { buffer := audioBuffer
    position := 0
    looping := false
    playAcrossAllChannels := playOnAllChannels
    loopStartPos := 0
    loopLen := audioBuffer.numSamples }

/-- `AudioBufferSource::setNextReadPosition`: when looping, the argument
is first reduced with C++ `%` (truncated remainder, `Int.tmod`) by the
whole buffer length; the result is then upper-clamped by `jmin` against
the buffer length.  There is no lower clamp. -/
def setNextReadPosition (s : AudioBufferSource) (newPosition : Int) :
    AudioBufferSource :=
  let np : Int :=
    if s.looping then newPosition.tmod (s.buffer.numSamples : Int)
    else newPosition
  { s with position := min (s.buffer.numSamples : Int) np }

/-- `AudioBufferSource::getNextReadPosition`. -/
def getNextReadPosition (s : AudioBufferSource) : Int := s.position

/-- `AudioBufferSource::getTotalLength`. -/
def getTotalLength (s : AudioBufferSource) : Int := s.buffer.numSamples

/-- `AudioBufferSource::setLooping`. -/
def setLooping (s : AudioBufferSource) (shouldLoop : Bool) :
    AudioBufferSource :=
  { s with looping := shouldLoop }

/-- `AudioBufferSource::setLoopRange`: clamps the start into
`[0, numSamples-1]` and the length into `[1, numSamples - start]`. -/
def setLoopRange (s : AudioBufferSource) (loopStart loopLength : Int) :
    AudioBufferSource :=
  let L : Int := s.buffer.numSamples
  let start : Int := max 0 (min loopStart (L - 1))
  let len : Int := max 1 (min (L - start) loopLength)
  { s with loopStartPos := start, loopLen := len }

end AudioBufferSource

/-- Mutable state threaded through the `while (samplesNeeded > 0)` loop of
`getNextAudioBlock`: the destination buffer, the read position, the
remaining sample count, and — as instrumentation — the list of
`(startFrame, length)` intervals the loop has read from the source
buffer (most recent first).  A read is recorded exactly when the C++
code executes its `copyFrom` calls. -/
structure FillState where
  dest : AudioBuffer
  position : Int
  samplesNeeded : Int
  reads : List (Int × Int)

/-- One iteration of the `while` loop body of
`AudioBufferSource::getNextAudioBlock`, for a source buffer `src`,
flags `looping`/`playAll`, loop region, and destination start sample. -/
def fillIter (src : AudioBuffer) (looping playAll : Bool)
    (loopStartPos loopLen : Int) (startSample : Nat)
    (st : FillState) : FillState :=
  let bufferSize : Int := src.numSamples
  let samplesToCopy : Int :=
    min (if looping then loopStartPos + loopLen - st.position
         else bufferSize - st.position) st.samplesNeeded
  let st1 : FillState :=
    if 0 < samplesToCopy then
      let maxInChannels := src.numChannels
      let maxOutChannels := st.dest.numChannels
      let maxOutChannels :=
        if playAll then maxOutChannels
        else min maxOutChannels maxInChannels
      { dest := copyChannels st.dest startSample src maxInChannels
          st.position samplesToCopy maxOutChannels
        position := st.position + samplesToCopy
        samplesNeeded := st.samplesNeeded - samplesToCopy
        reads := (st.position, samplesToCopy) :: st.reads }
    else
      { st with position := st.position + st.samplesNeeded,
                samplesNeeded := 0 }
  if looping then
    let posdelta := st1.position - (loopStartPos + loopLen)
    if 0 ≤ posdelta then { st1 with position := loopStartPos + posdelta }
    else st1
  else
    { st1 with position := st1.position + st1.samplesNeeded - samplesToCopy,
               samplesNeeded := 0 }

/-- The `while (samplesNeeded > 0)` loop, with explicit fuel: `none` means
the fuel ran out with samples still needed.  `fillLoop_total` below shows
fuel equal to the requested sample count always suffices. -/
def fillLoop (src : AudioBuffer) (looping playAll : Bool)
    (loopStartPos loopLen : Int) (startSample : Nat) :
    Nat → FillState → Option FillState
  | fuel, st =>
    if 0 < st.samplesNeeded then
      match fuel with
      | 0 => none
      | f + 1 =>
        fillLoop src looping playAll loopStartPos loopLen startSample f
          (fillIter src looping playAll loopStartPos loopLen startSample st)
    else some st

/-- Result of one `getNextAudioBlock` call: the source with its updated
read position, the destination buffer after the call, and the recorded
read intervals. -/
structure FillResult where
  source : AudioBufferSource
  dest : AudioBuffer
  reads : List (Int × Int)

/-- `AudioBufferSource::getNextAudioBlock`: clears the active region of
the destination, then runs the fill loop.  The fuel
`info.numSamples` is always enough (`fillLoop_total`), so the `getD`
fallback state is never consulted. -/
def getNextAudioBlock (s : AudioBufferSource)
    (info : AudioSourceChannelInfo) : FillResult :=
  let dest0 := clearActiveBufferRegion info
  let st0 : FillState :=
    { dest := dest0, position := s.position,
      samplesNeeded := (info.numSamples : Int), reads := [] }
  let stF :=
    (fillLoop s.buffer s.looping s.playAcrossAllChannels s.loopStartPos
        s.loopLen info.startSample info.numSamples st0).getD st0
  { source := { s with position := stF.position }
    dest := stF.dest
    reads := stF.reads }

/-- A sequence of `getNextAudioBlock` calls, keeping only the evolving
source state. -/
def applyCalls (s : AudioBufferSource) (infos : List AudioSourceChannelInfo) :
    AudioBufferSource :=
  infos.foldl (fun t info => (getNextAudioBlock t info).source) s

/-! ### Concrete states used by counterexamples and witnesses -/

/-- A 1-channel, 4-frame buffer whose samples are the frame index. -/
def exBuffer4 : AudioBuffer :=
  { numChannels := 1, numSamples := 4, sample := fun _ j => j }

/-- A looping source over `exBuffer4` with the full buffer as loop
region. -/
def exSourceLooping : AudioBufferSource :=
  { buffer := exBuffer4, position := 0, looping := true,
    playAcrossAllChannels := false, loopStartPos := 0, loopLen := 4 }

/-- A looping source over a 10-frame buffer whose read position is `8`. -/
def exSourcePos8 : AudioBufferSource :=
  { buffer := { numChannels := 1, numSamples := 10, sample := fun _ j => j },
    position := 8, looping := true, playAcrossAllChannels := false,
    loopStartPos := 0, loopLen := 10 }

/-- An 8-sample destination block over a fresh 2-channel buffer holding
the sentinel value `5` everywhere, so that clearing is observable. -/
def exInfoStereo8 : AudioSourceChannelInfo :=
  { buffer := { numChannels := 2, numSamples := 8, sample := fun _ _ => 5 }
    startSample := 0
    numSamples := 8 }

/-- A non-looping mono source over `exBuffer4` with channel fan-out
enabled. -/
def exSourceFan : AudioBufferSource :=
  { buffer := exBuffer4, position := 0, looping := false,
    playAcrossAllChannels := true, loopStartPos := 0, loopLen := 4 }

/-- A non-looping source over `exBuffer4` whose read position has reached
the buffer end. -/
def exSourceDone : AudioBufferSource :=
  { buffer := exBuffer4, position := 4, looping := false,
    playAcrossAllChannels := false, loopStartPos := 0, loopLen := 4 }

/-- The loop-range invariant `setLoopRange` is claimed to establish. -/
def loopRangeInv (s : AudioBufferSource) : Prop :=
  0 ≤ s.loopStartPos ∧ s.loopStartPos ≤ (s.buffer.numSamples : Int) - 1 ∧
    1 ≤ s.loopLen ∧ s.loopLen ≤ (s.buffer.numSamples : Int) - s.loopStartPos

/-! ### Session lifecycle (`AutoRemovingTransportSource`) -/

/-- Lifecycle phase of an `AutoRemovingTransportSource` session. -/
inductive SessionPhase
  | Active
  | Removed
deriving DecidableEq

/-- Observable state of one playback session: its phase, whether its
registration is present in the mixer, and whether the session object has
been destroyed. -/
structure Session where
  phase : SessionPhase
  inMixer : Bool
  destroyed : Bool
deriving DecidableEq

/-- Events that can reach a session: a 10 Hz poll tick (carrying whether
the transport still reports playing), a real-time audio-callback pull,
any other control-thread activity not aimed at this session, and the
destruction of the owning `SoundPlayer`. -/
inductive SessionEvent
  | pollTick (transportPlaying : Bool)
  | audioBlock
  | otherControl
  | managerDestroyed
deriving DecidableEq

/-- The session constructed by a `play` call: registered in the mixer,
timer running. -/
def sessionStart : Session :=
  { phase := SessionPhase.Active, inMixer := true, destroyed := false }

/-- Step function of the session lifecycle.  The poll branch is
`AutoRemovingTransportSource::timerCallback` (src/): if the transport no
longer reports playing, the session calls
`mixer.removeInputSource (this)`.  Modelled from the spec: the effect of
that removal — `MixerAudioSource::removeInputSource` is not under src/,
and the session registered itself with `addInputSource (this, true)`, so
per §4.3 the unregistration deletes the registration's object, i.e.
triggers the session's own destruction.  `managerDestroyed` models
`SoundPlayer::~SoundPlayer` running `mixer.removeAllInputs()`.  Audio
pulls and unrelated control activity do not touch the lifecycle. -/
def sessionStep (s : Session) (e : SessionEvent) : Session :=
  match e with
  | SessionEvent.pollTick playing =>
      if s.phase = SessionPhase.Active ∧ playing = false then
        { phase := SessionPhase.Removed, inMixer := false, destroyed := true }
      else s
  | SessionEvent.audioBlock => s
  | SessionEvent.otherControl => s
  | SessionEvent.managerDestroyed =>
      { phase := SessionPhase.Removed, inMixer := false, destroyed := true }

/-! ### Teardown order of the wrapper layers -/

/-- Teardown events of the two wrapper layers, in C++ destruction
order. -/
inductive TeardownEvent
  | detachSessionSource
  | detachTransportSource
  | destroyTransport
  | destroySource
deriving DecidableEq

/-- `~AudioSourceOwningTransportSource`: the destructor body runs
`setSource (nullptr)`, detaching the owned source from the transport
machinery without deleting it (modelled from the spec §4.2 — the base
`AudioTransportSource::setSource` is not under src/ and does not own the
source), and only then the `std::unique_ptr<PositionableAudioSource>`
member is destroyed, freeing the source once. -/
def owningTransportTeardown : List TeardownEvent :=
  [TeardownEvent.detachTransportSource, TeardownEvent.destroySource]

/-- `~AutoRemovingTransportSource`: the destructor body detaches its own
source reference (`setSource (nullptr)`), then the
`OptionalScopedPointer<AudioTransportSource>` member destroys the wrapped
transport exactly when the session owns it, running the transport's own
teardown. -/
def sessionTeardown (ownsTransport : Bool)
    (transportTeardown : List TeardownEvent) : List TeardownEvent :=
  TeardownEvent.detachSessionSource ::
    (if ownsTransport then
      TeardownEvent.destroyTransport :: transportTeardown
    else [])

/-- Complete teardown trace of the owning `play` path: a session that
owns an `AudioSourceOwningTransportSource`, which owns the original
source (`own = true`). -/
def playTeardownTrace : List TeardownEvent :=
  sessionTeardown true owningTransportTeardown

/-! ### The `SoundPlayer` facade -/

/-- A decoded-format reader (`AudioFormatReader`), reduced to the one
attribute the play path consumes: its native sample rate.  The C++ rate
is a `double` that is only ever passed along, never computed with, so it
is modelled as a rational. -/
structure Reader where
  sampleRate : Rat
deriving DecidableEq

/-- An abstract positionable source pointer handed to the generic `play`
overload. -/
inductive SourceHandle
  | buffer (b : AudioBuffer) (ownBuffer : Bool) (fanOut : Bool)
  | reader (rate : Rat)
  | transport

/-- State of the `SoundPlayer` facade that `play` can affect: how many
inputs are registered in the mixer, and the cached device sample rate and
block size. -/
structure SoundPlayerState where
  mixerInputs : Nat
  sampleRate : Rat
  bufferSize : Int
deriving DecidableEq

/-- `SoundPlayer::play (PositionableAudioSource*, bool, double)`: a
non-null source is (wrapped if necessary and) handed to a new
`AutoRemovingTransportSource`, which registers itself with the mixer; a
null source registers nothing — `delete` of a null pointer is a no-op —
and the state is unchanged. -/
def playSource (st : SoundPlayerState) (source : Option SourceHandle)
    (_deleteWhenFinished : Bool) (_fileSampleRate : Rat) : SoundPlayerState :=
  match source with
  | some _ => { st with mixerInputs := st.mixerInputs + 1 }
  | none => st

/-- `SoundPlayer::play (AudioFormatReader*, bool)`: null reader → no-op;
otherwise an `AudioFormatReaderSource` over the reader is played at the
reader's native rate. -/
def playReader (st : SoundPlayerState) (reader : Option Reader)
    (_deleteWhenFinished : Bool) : SoundPlayerState :=
  match reader with
  | some r => playSource st (some (SourceHandle.reader r.sampleRate)) true
      r.sampleRate
  | none => st

/-- `SoundPlayer::play (const void*, size_t)`: when the data pointer is
non-null and the size positive, the bytes are wrapped in a memory stream
and the format registry asked for a reader (`readerFromData`, possibly
null); otherwise nothing happens. -/
def playResource (st : SoundPlayerState) (dataNonNull : Bool) (size : Nat)
    (readerFromData : Option Reader) : SoundPlayerState :=
  if dataNonNull ∧ 0 < size then playReader st readerFromData true else st

/-- `SoundPlayer::play (const File&)`: only an existing file is handed to
the format registry (`readerForFile`, possibly null). -/
def playFile (st : SoundPlayerState) (fileExists : Bool)
    (readerForFile : Option Reader) : SoundPlayerState :=
  if fileExists then playReader st readerForFile true else st

/-- `SoundPlayer::play (AudioBuffer<float>*, bool, bool)`: null buffer →
no-op; otherwise the buffer is wrapped in an `AudioBufferSource` played
at the manager's current device rate. -/
def playBuffer (st : SoundPlayerState) (buffer : Option AudioBuffer)
    (deleteWhenFinished playOnAllOutputChannels : Bool) : SoundPlayerState :=
  match buffer with
  | some b => playSource st
      (some (SourceHandle.buffer b deleteWhenFinished
        playOnAllOutputChannels)) true st.sampleRate
  | none => st

/-! ### Termination of the fill loop -/

/-- Every iteration of the `while` body strictly decreases the remaining
sample count (as a natural number): either a positive run is copied and
subtracted, or `samplesNeeded` is forced to `0`. -/
theorem fillIter_samplesNeeded_toNat_lt (src : AudioBuffer)
    (looping playAll : Bool) (ls ll : Int) (ss : Nat) (st : FillState)
    (h : 0 < st.samplesNeeded) :
    (fillIter src looping playAll ls ll ss st).samplesNeeded.toNat
      < st.samplesNeeded.toNat := by
  have hmin :
      min (if looping then ls + ll - st.position
           else ((src.numSamples : Nat) : Int) - st.position)
        st.samplesNeeded ≤ st.samplesNeeded := min_le_right _ _
  simp only [fillIter]
  cases looping <;> split_ifs <;> simp_all

/-- Fuel equal to the remaining sample count is always enough for the
fill loop to reach `samplesNeeded ≤ 0` and return. -/
theorem fillLoop_total (src : AudioBuffer) (looping playAll : Bool)
    (ls ll : Int) (ss : Nat) (fuel : Nat) (st : FillState)
    (h : st.samplesNeeded.toNat ≤ fuel) :
    (fillLoop src looping playAll ls ll ss fuel st).isSome := by
  induction fuel generalizing st with
  | zero =>
    rw [fillLoop]
    have : ¬ 0 < st.samplesNeeded := by omega
    simp [this]
  | succ f ih =>
    rw [fillLoop]
    by_cases hp : 0 < st.samplesNeeded
    · have hlt := fillIter_samplesNeeded_toNat_lt src looping playAll ls ll ss st hp
      simp only [hp, if_true]
      exact ih _ (by omega)
    · simp [hp]

/-- The fill loop, run with the fuel `getNextAudioBlock` supplies, always
returns a final state. -/
theorem getNextAudioBlock_fillLoop_some (s : AudioBufferSource)
    (info : AudioSourceChannelInfo) :
    ∃ stF, fillLoop s.buffer s.looping s.playAcrossAllChannels s.loopStartPos
        s.loopLen info.startSample info.numSamples
        { dest := clearActiveBufferRegion info, position := s.position,
          samplesNeeded := (info.numSamples : Int), reads := [] } = some stF := by
  have h := fillLoop_total s.buffer s.looping s.playAcrossAllChannels
    s.loopStartPos s.loopLen info.startSample info.numSamples
    { dest := clearActiveBufferRegion info, position := s.position,
      samplesNeeded := (info.numSamples : Int), reads := [] }
    (by simp)
  exact Option.isSome_iff_exists.mp h

/-- `getNextAudioBlock`, expressed through the final loop state. -/
theorem getNextAudioBlock_eq (s : AudioBufferSource)
    (info : AudioSourceChannelInfo) :
    ∃ stF, fillLoop s.buffer s.looping s.playAcrossAllChannels s.loopStartPos
        s.loopLen info.startSample info.numSamples
        { dest := clearActiveBufferRegion info, position := s.position,
          samplesNeeded := (info.numSamples : Int), reads := [] } = some stF ∧
      getNextAudioBlock s info =
        { source := { s with position := stF.position },
          dest := stF.dest, reads := stF.reads } := by
  obtain ⟨stF, hF⟩ := getNextAudioBlock_fillLoop_some s info
  exact ⟨stF, hF, by simp [getNextAudioBlock, hF]⟩

/-! ### The looping fill loop confines the position to the loop region -/

/-- `getNextAudioBlock` only moves the read position: buffer, flags and
loop region of the source are untouched. -/
theorem getNextAudioBlock_source_fields (s : AudioBufferSource)
    (info : AudioSourceChannelInfo) :
    (getNextAudioBlock s info).source.buffer = s.buffer ∧
      (getNextAudioBlock s info).source.looping = s.looping ∧
      (getNextAudioBlock s info).source.playAcrossAllChannels
          = s.playAcrossAllChannels ∧
      (getNextAudioBlock s info).source.loopStartPos = s.loopStartPos ∧
      (getNextAudioBlock s info).source.loopLen = s.loopLen :=
  ⟨rfl, rfl, rfl, rfl, rfl⟩

/-- One looping iteration keeps a position that is inside the loop region
inside the loop region. -/
theorem fillIter_inRegion (src : AudioBuffer) (playAll : Bool)
    (ls ll : Int) (ss : Nat) (st : FillState) (hll : 1 ≤ ll)
    (hp1 : ls ≤ st.position) (hp2 : st.position < ls + ll)
    (hneed : 0 < st.samplesNeeded) :
    ls ≤ (fillIter src true playAll ls ll ss st).position ∧
      (fillIter src true playAll ls ll ss st).position < ls + ll := by
  have hc : 0 < min (ls + ll - st.position) st.samplesNeeded := by omega
  simp only [fillIter]
  split_ifs <;> simp_all <;> omega

/-- A looping fill run keeps a position that is inside the loop region
inside the loop region, whatever the fuel and remaining count. -/
theorem fillLoop_inRegion (src : AudioBuffer) (playAll : Bool)
    (ls ll : Int) (ss : Nat) (hll : 1 ≤ ll) :
    ∀ (fuel : Nat) (st st' : FillState),
      fillLoop src true playAll ls ll ss fuel st = some st' →
      ls ≤ st.position → st.position < ls + ll →
      ls ≤ st'.position ∧ st'.position < ls + ll := by
  intro fuel
  induction fuel with
  | zero =>
    intro st st' h hp1 hp2
    rw [fillLoop] at h
    by_cases hn : 0 < st.samplesNeeded
    · simp [hn] at h
    · rw [if_neg hn] at h
      cases h
      exact ⟨hp1, hp2⟩
  | succ f ih =>
    intro st st' h hp1 hp2
    rw [fillLoop] at h
    by_cases hn : 0 < st.samplesNeeded
    · simp only [hn, if_true] at h
      have hreg := fillIter_inRegion src playAll ls ll ss st hll hp1 hp2 hn
      exact ih _ _ h hreg.1 hreg.2
    · rw [if_neg hn] at h
      cases h
      exact ⟨hp1, hp2⟩

/-- When the requested run reaches the loop-region end, the iteration
copies exactly up to the end and wraps the position to the loop start. -/
theorem fillIter_entry (src : AudioBuffer) (playAll : Bool)
    (ls ll : Int) (ss : Nat) (st : FillState)
    (hp : st.position < ls + ll)
    (hcross : ls + ll ≤ st.position + st.samplesNeeded) :
    (fillIter src true playAll ls ll ss st).position = ls := by
  have hc : 0 < min (ls + ll - st.position) st.samplesNeeded := by omega
  have hmin : min (ls + ll - st.position) st.samplesNeeded
      = ls + ll - st.position := by omega
  simp only [fillIter]
  split_ifs <;> simp_all

/-- A looping fill run that starts below the loop-region end and is asked
for enough samples to reach it ends with the position inside the loop
region. -/
theorem fillLoop_entry (src : AudioBuffer) (playAll : Bool)
    (ls ll : Int) (ss : Nat) (hll : 1 ≤ ll) :
    ∀ (fuel : Nat) (st st' : FillState),
      fillLoop src true playAll ls ll ss fuel st = some st' →
      st.position < ls + ll →
      ls + ll ≤ st.position + st.samplesNeeded →
      ls ≤ st'.position ∧ st'.position < ls + ll := by
  intro fuel st st' h hp hcross
  have hn : 0 < st.samplesNeeded := by omega
  match fuel with
  | 0 =>
    rw [fillLoop] at h
    simp [hn] at h
  | f + 1 =>
    rw [fillLoop] at h
    simp only [hn, if_true] at h
    have hpos := fillIter_entry src playAll ls ll ss st hp hcross
    exact fillLoop_inRegion src playAll ls ll ss hll f _ _ h
      (by omega) (by omega)

/-- A single `getNextAudioBlock` call keeps an in-region position in the
loop region (looping enabled, nonempty region). -/
theorem getNextAudioBlock_inRegion (s : AudioBufferSource)
    (info : AudioSourceChannelInfo) (hloop : s.looping = true)
    (hll : 1 ≤ s.loopLen) (hp1 : s.loopStartPos ≤ s.position)
    (hp2 : s.position < s.loopStartPos + s.loopLen) :
    s.loopStartPos ≤ (getNextAudioBlock s info).source.position ∧
      (getNextAudioBlock s info).source.position
        < s.loopStartPos + s.loopLen := by
  obtain ⟨stF, hF, hEq⟩ := getNextAudioBlock_eq s info
  rw [hloop] at hF
  have := fillLoop_inRegion s.buffer s.playAcrossAllChannels s.loopStartPos
    s.loopLen info.startSample hll info.numSamples _ _ hF hp1 hp2
  rw [hEq]
  exact this

/-- Any sequence of `getNextAudioBlock` calls keeps an in-region position
in the loop region, and never touches the loop region itself. -/
theorem applyCalls_inRegion (infos : List AudioSourceChannelInfo) :
    ∀ (s : AudioBufferSource), s.looping = true → 1 ≤ s.loopLen →
      s.loopStartPos ≤ s.position → s.position < s.loopStartPos + s.loopLen →
      (applyCalls s infos).loopStartPos = s.loopStartPos ∧
        (applyCalls s infos).loopLen = s.loopLen ∧
        s.loopStartPos ≤ (applyCalls s infos).position ∧
        (applyCalls s infos).position < s.loopStartPos + s.loopLen := by
  induction infos with
  | nil =>
    intro s hl hll hp1 hp2
    exact ⟨rfl, rfl, hp1, hp2⟩
  | cons i rest ih =>
    intro s hl hll hp1 hp2
    have hstep := getNextAudioBlock_inRegion s i hl hll hp1 hp2
    have hfields := getNextAudioBlock_source_fields s i
    have happly : applyCalls s (i :: rest)
        = applyCalls (getNextAudioBlock s i).source rest := rfl
    rw [happly]
    have := ih (getNextAudioBlock s i).source
      (by rw [hfields.2.1, hl]) (by rw [hfields.2.2.2.2]; exact hll)
      (by rw [hfields.2.2.2.1]; exact hstep.1)
      (by rw [hfields.2.2.2.1, hfields.2.2.2.2]; exact hstep.2)
    rw [hfields.2.2.2.1, hfields.2.2.2.2] at this
    exact this

/-- `setLoopRange` leaves the buffer untouched. -/
theorem setLoopRange_buffer (s : AudioBufferSource) (a b : Int) :
    (s.setLoopRange a b).buffer = s.buffer := rfl

/-- One `setLoopRange` call establishes the loop-range invariant whenever
the buffer is nonempty. -/
theorem setLoopRange_inv (s : AudioBufferSource) (a b : Int)
    (hL : 1 ≤ s.buffer.numSamples) : loopRangeInv (s.setLoopRange a b) := by
  simp only [AudioBufferSource.setLoopRange, loopRangeInv]
  omega

/-- **C1.**  Looping confinement: for a looping source whose loop region
`[loopStart, loopStart+loopLen)` is valid, a `getNextAudioBlock` call
that makes the read position cross the loop-region end leaves the
position strictly inside the region — however many times the region
wraps within that call — and every subsequent call (any further list of
block requests) keeps it strictly inside the region. -/
theorem C1_looping_confinement (s : AudioBufferSource)
    (info : AudioSourceChannelInfo) (infos : List AudioSourceChannelInfo)
    (hloop : s.looping = true) (_h0 : 0 ≤ s.loopStartPos)
    (hll : 1 ≤ s.loopLen)
    (_h2 : s.loopStartPos + s.loopLen ≤ (s.buffer.numSamples : Int))
    (hpos : s.position < s.loopStartPos + s.loopLen)
    (hcross : s.loopStartPos + s.loopLen
        ≤ s.position + (info.numSamples : Int)) :
    (s.loopStartPos ≤ (getNextAudioBlock s info).source.position ∧
        (getNextAudioBlock s info).source.position
          < s.loopStartPos + s.loopLen) ∧
      (s.loopStartPos
          ≤ (applyCalls (getNextAudioBlock s info).source infos).position ∧
        (applyCalls (getNextAudioBlock s info).source infos).position
          < s.loopStartPos + s.loopLen) := by
  obtain ⟨stF, hF, hEq⟩ := getNextAudioBlock_eq s info
  rw [hloop] at hF
  have hfirst := fillLoop_entry s.buffer s.playAcrossAllChannels
    s.loopStartPos s.loopLen info.startSample hll info.numSamples _ _ hF
    hpos hcross
  have hsrc1 : (getNextAudioBlock s info).source.position = stF.position := by
    rw [hEq]
  have hfields := getNextAudioBlock_source_fields s info
  have hrest := applyCalls_inRegion infos (getNextAudioBlock s info).source
    (by rw [hfields.2.1, hloop]) (by rw [hfields.2.2.2.2]; exact hll)
    (by rw [hfields.2.2.2.1, hsrc1]; exact hfirst.1)
    (by rw [hfields.2.2.2.1, hfields.2.2.2.2, hsrc1]; exact hfirst.2)
  rw [hfields.2.2.2.1, hfields.2.2.2.2] at hrest
  exact ⟨⟨by rw [hsrc1]; exact hfirst.1, by rw [hsrc1]; exact hfirst.2⟩,
    hrest.2.2.1, hrest.2.2.2⟩

/-- **C1, witness** on `exSourceLooping` (loop region `[0,4)`, position 0)
crossing the region end with an 8-sample request and one further call. -/
theorem C1_witness :
    (exSourceLooping.looping = true ∧ 0 ≤ exSourceLooping.loopStartPos ∧
        1 ≤ exSourceLooping.loopLen ∧
        exSourceLooping.loopStartPos + exSourceLooping.loopLen
          ≤ (exSourceLooping.buffer.numSamples : Int) ∧
        exSourceLooping.position
          < exSourceLooping.loopStartPos + exSourceLooping.loopLen ∧
        exSourceLooping.loopStartPos + exSourceLooping.loopLen
          ≤ exSourceLooping.position + (exInfoStereo8.numSamples : Int)) ∧
      ((exSourceLooping.loopStartPos
            ≤ (getNextAudioBlock exSourceLooping exInfoStereo8).source.position ∧
          (getNextAudioBlock exSourceLooping exInfoStereo8).source.position
            < exSourceLooping.loopStartPos + exSourceLooping.loopLen) ∧
        (exSourceLooping.loopStartPos
            ≤ (applyCalls (getNextAudioBlock exSourceLooping exInfoStereo8).source
              [exInfoStereo8]).position ∧
          (applyCalls (getNextAudioBlock exSourceLooping exInfoStereo8).source
              [exInfoStereo8]).position
            < exSourceLooping.loopStartPos + exSourceLooping.loopLen)) :=
  ⟨⟨rfl, by decide, by decide, by decide, by decide, by decide⟩,
    C1_looping_confinement exSourceLooping exInfoStereo8 [exInfoStereo8]
      rfl (by decide) (by decide) (by decide) (by decide) (by decide)⟩

/-- A non-looping iteration past the buffer end copies nothing, reads
nothing, and leaves the position at or past the buffer end. -/
theorem fillIter_exhausted (src : AudioBuffer) (playAll : Bool)
    (ls ll : Int) (ss : Nat) (st : FillState)
    (hL : (src.numSamples : Int) ≤ st.position)
    (hneed : 0 < st.samplesNeeded) :
    (fillIter src false playAll ls ll ss st).dest = st.dest ∧
      (fillIter src false playAll ls ll ss st).reads = st.reads ∧
      (src.numSamples : Int) ≤ (fillIter src false playAll ls ll ss st).position ∧
      (fillIter src false playAll ls ll ss st).samplesNeeded = 0 := by
  have hc : ¬ 0 < min ((src.numSamples : Int) - st.position)
      st.samplesNeeded := by omega
  simp only [fillIter]
  split_ifs
  all_goals simp_all
  all_goals omega

/-- A non-looping fill run starting at or past the buffer end leaves the
destination and the read log untouched and the position at or past the
buffer end. -/
theorem fillLoop_exhausted (src : AudioBuffer) (playAll : Bool)
    (ls ll : Int) (ss : Nat) :
    ∀ (fuel : Nat) (st st' : FillState),
      fillLoop src false playAll ls ll ss fuel st = some st' →
      (src.numSamples : Int) ≤ st.position →
      st'.dest = st.dest ∧ st'.reads = st.reads ∧
        (src.numSamples : Int) ≤ st'.position := by
  intro fuel
  induction fuel with
  | zero =>
    intro st st' h hp
    rw [fillLoop] at h
    by_cases hn : 0 < st.samplesNeeded
    · simp [hn] at h
    · rw [if_neg hn] at h
      cases h
      exact ⟨rfl, rfl, hp⟩
  | succ f ih =>
    intro st st' h hp
    rw [fillLoop] at h
    by_cases hn : 0 < st.samplesNeeded
    · simp only [hn, if_true] at h
      obtain ⟨hd, hr, hpos, _⟩ :=
        fillIter_exhausted src playAll ls ll ss st hp hn
      obtain ⟨hd', hr', hpos'⟩ := ih _ _ h hpos
      exact ⟨hd'.trans hd, hr'.trans hr, hpos'⟩
    · rw [if_neg hn] at h
      cases h
      exact ⟨rfl, rfl, hp⟩

/-- A `getNextAudioBlock` call on an exhausted non-looping source leaves
the destination exactly as the initial clear wrote it, reads nothing from
the sample buffer, and keeps the position at or past the buffer end. -/
theorem getNextAudioBlock_exhausted (s : AudioBufferSource)
    (info : AudioSourceChannelInfo) (hloop : s.looping = false)
    (hp : (s.buffer.numSamples : Int) ≤ s.position) :
    (getNextAudioBlock s info).dest = clearActiveBufferRegion info ∧
      (getNextAudioBlock s info).reads = [] ∧
      (s.buffer.numSamples : Int) ≤ (getNextAudioBlock s info).source.position := by
  obtain ⟨stF, hF, hEq⟩ := getNextAudioBlock_eq s info
  rw [hloop] at hF
  obtain ⟨hd, hr, hpos⟩ := fillLoop_exhausted s.buffer
    s.playAcrossAllChannels s.loopStartPos s.loopLen info.startSample
    info.numSamples _ _ hF hp
  rw [hEq]
  exact ⟨hd, hr, hpos⟩

/-- Any further sequence of calls on an exhausted non-looping source
keeps the position at or past the buffer end (and the buffer and looping
flag unchanged). -/
theorem applyCalls_exhausted (infos : List AudioSourceChannelInfo) :
    ∀ (s : AudioBufferSource), s.looping = false →
      (s.buffer.numSamples : Int) ≤ s.position →
      (applyCalls s infos).buffer = s.buffer ∧
        (applyCalls s infos).looping = false ∧
        (s.buffer.numSamples : Int) ≤ (applyCalls s infos).position := by
  induction infos with
  | nil =>
    intro s hl hp
    exact ⟨rfl, hl, hp⟩
  | cons i rest ih =>
    intro s hl hp
    have hstep := getNextAudioBlock_exhausted s i hl hp
    have hfields := getNextAudioBlock_source_fields s i
    have happly : applyCalls s (i :: rest)
        = applyCalls (getNextAudioBlock s i).source rest := rfl
    rw [happly]
    have := ih (getNextAudioBlock s i).source
      (by rw [hfields.2.1, hl]) (by rw [hfields.1]; exact hstep.2.2)
    rw [hfields.1] at this
    exact this

/-- **C2.**  Non-looping exhaustion: once the read position of a
non-looping source has reached the buffer length `L`, a further
`getNextAudioBlock` call writes only the zeros of the initial clear into
the requested region of the destination, performs no read from the
sample buffer at all (so in particular none outside `[0, L)`), and
leaves the position at or past `L` — so the same holds for every further
call, for any requested block lengths. -/
theorem C2_exhausted_silence (s : AudioBufferSource)
    (info : AudioSourceChannelInfo) (infos : List AudioSourceChannelInfo)
    (ch : Nat) (j : Int) (hloop : s.looping = false)
    (hp : (s.buffer.numSamples : Int) ≤ s.position)
    (hch : ch < info.buffer.numChannels)
    (hj1 : (info.startSample : Int) ≤ j)
    (hj2 : j < (info.startSample : Int) + (info.numSamples : Int)) :
    (getNextAudioBlock s info).dest.sample ch j = 0 ∧
      (getNextAudioBlock s info).reads = [] ∧
      (s.buffer.numSamples : Int) ≤ (getNextAudioBlock s info).source.position ∧
      (s.buffer.numSamples : Int)
        ≤ (applyCalls (getNextAudioBlock s info).source infos).position := by
  obtain ⟨hd, hr, hpos⟩ := getNextAudioBlock_exhausted s info hloop hp
  have hfields := getNextAudioBlock_source_fields s info
  have hrest := applyCalls_exhausted infos (getNextAudioBlock s info).source
    (by rw [hfields.2.1, hloop]) (by rw [hfields.1]; exact hpos)
  refine ⟨?_, hr, hpos, by rw [hfields.1] at hrest; exact hrest.2.2⟩
  rw [hd]
  simp only [clearActiveBufferRegion]
  rw [if_pos ⟨hch, hj1, hj2⟩]

/-- **C2, witness** on `exSourceDone` (length 4, position 4) with an
8-sample stereo request, sample `(1, 3)` of the destination, and one
further call. -/
theorem C2_witness :
    (exSourceDone.looping = false ∧
        (exSourceDone.buffer.numSamples : Int) ≤ exSourceDone.position ∧
        1 < exInfoStereo8.buffer.numChannels ∧
        (exInfoStereo8.startSample : Int) ≤ 3 ∧
        (3 : Int) < (exInfoStereo8.startSample : Int)
          + (exInfoStereo8.numSamples : Int)) ∧
      ((getNextAudioBlock exSourceDone exInfoStereo8).dest.sample 1 3 = 0 ∧
        (getNextAudioBlock exSourceDone exInfoStereo8).reads = [] ∧
        (exSourceDone.buffer.numSamples : Int)
          ≤ (getNextAudioBlock exSourceDone exInfoStereo8).source.position ∧
        (exSourceDone.buffer.numSamples : Int)
          ≤ (applyCalls (getNextAudioBlock exSourceDone exInfoStereo8).source
            [exInfoStereo8]).position) :=
  ⟨⟨rfl, by decide, by decide, by decide, by decide⟩,
    C2_exhausted_silence exSourceDone exInfoStereo8 [exInfoStereo8] 1 3
      rfl (by decide) (by decide) (by decide) (by decide)⟩

/-! ### Channel routing of the copy loop -/

/-- `copyChannels` never changes the channel count of the destination. -/
theorem copyChannels_numChannels (dest : AudioBuffer) (ss : Nat)
    (src : AudioBuffer) (m : Nat) (p n : Int) :
    ∀ k, (copyChannels dest ss src m p n k).numChannels
      = dest.numChannels := by
  intro k
  induction k with
  | zero => rfl
  | succ k ih => simpa [copyChannels, copyFrom] using ih

/-- Channels at or beyond the loop bound are never written. -/
theorem copyChannels_sample_ge (dest : AudioBuffer) (ss : Nat)
    (src : AudioBuffer) (m : Nat) (p n : Int) :
    ∀ (k ch : Nat), k ≤ ch → ∀ j,
      (copyChannels dest ss src m p n k).sample ch j = dest.sample ch j := by
  intro k
  induction k with
  | zero => intro ch _ j; rfl
  | succ k ih =>
    intro ch hk j
    have hne : ch ≠ k := by omega
    simp only [copyChannels, copyFrom]
    rw [if_neg (by simp [hne])]
    exact ih ch (by omega) j

/-- With a mono source and a 2-channel destination, the fan-out copy
(`maxOutChannels = 2`) writes the same data to both channels: pointwise,
if the two channels agreed before the copy they agree after it. -/
theorem copyChannels_two_eq (dest : AudioBuffer) (ss : Nat)
    (src : AudioBuffer) (p n : Int) (j : Int)
    (hold : dest.sample 0 j = dest.sample 1 j) :
    (copyChannels dest ss src 1 p n 2).sample 0 j
      = (copyChannels dest ss src 1 p n 2).sample 1 j := by
  simp only [copyChannels, copyFrom]
  by_cases hj : (ss : Int) ≤ j ∧ j < (ss : Int) + n <;> simp [hj, hold]

/-- The first channel written by the copy loop takes its data from source
channel `0 % maxInChannels`, i.e. channel 0 for a mono source, at the
current read position. -/
theorem copyChannels_sample_zero (dest : AudioBuffer) (ss : Nat)
    (src : AudioBuffer) (p n : Int) (j : Int) (k : Nat) (hk : 1 ≤ k)
    (hj1 : (ss : Int) ≤ j) (hj2 : j < (ss : Int) + n) :
    (copyChannels dest ss src 1 p n k).sample 0 j
      = src.sample 0 (p + (j - (ss : Int))) := by
  induction k with
  | zero => omega
  | succ k ih =>
    by_cases hk1 : 1 ≤ k
    · have h0 : (0 : Nat) ≠ k := by omega
      simp only [copyChannels, copyFrom]
      rw [if_neg (by simp [h0])]
      exact ih hk1
    · have hk0 : k = 0 := by omega
      subst hk0
      simp only [copyChannels, copyFrom]
      simp [hj1, hj2]

/-- One iteration with fan-out enabled, a mono source and a stereo
destination keeps the two destination channels pointwise equal (and the
channel count at 2). -/
theorem fillIter_fanout_eq (src : AudioBuffer) (looping : Bool)
    (ls ll : Int) (ss : Nat) (st : FillState)
    (hin : src.numChannels = 1) (hout : st.dest.numChannels = 2) :
    (fillIter src looping true ls ll ss st).dest.numChannels = 2 ∧
      ∀ j, st.dest.sample 0 j = st.dest.sample 1 j →
        (fillIter src looping true ls ll ss st).dest.sample 0 j
          = (fillIter src looping true ls ll ss st).dest.sample 1 j := by
  have hdest : (fillIter src looping true ls ll ss st).dest
      = (if 0 < min (if looping then ls + ll - st.position
              else (src.numSamples : Int) - st.position) st.samplesNeeded then
          copyChannels st.dest ss src src.numChannels st.position
            (min (if looping then ls + ll - st.position
              else (src.numSamples : Int) - st.position) st.samplesNeeded)
            st.dest.numChannels
        else st.dest) := by
    simp only [fillIter]
    split_ifs <;> rfl
  have key : ∀ T : Int,
      (copyChannels st.dest ss src src.numChannels st.position T
          st.dest.numChannels).numChannels = 2 ∧
        ∀ j, st.dest.sample 0 j = st.dest.sample 1 j →
          (copyChannels st.dest ss src src.numChannels st.position T
              st.dest.numChannels).sample 0 j
            = (copyChannels st.dest ss src src.numChannels st.position T
                st.dest.numChannels).sample 1 j := by
    intro T
    refine ⟨(copyChannels_numChannels _ _ _ _ _ _ _).trans hout,
      fun j hold => ?_⟩
    rw [hin, hout]
    exact copyChannels_two_eq st.dest ss src st.position T j hold
  rw [hdest]
  split_ifs <;> first
    | exact ⟨(key _).1, fun j hold => (key _).2 j hold⟩
    | exact ⟨hout, fun j hold => hold⟩

/-- One iteration with fan-out disabled and a mono source writes only
destination channel 0: channel 1 is untouched. -/
theorem fillIter_nofanout_ch1 (src : AudioBuffer) (looping : Bool)
    (ls ll : Int) (ss : Nat) (st : FillState)
    (hin : src.numChannels = 1) :
    (fillIter src looping false ls ll ss st).dest.numChannels
        = st.dest.numChannels ∧
      ∀ j, (fillIter src looping false ls ll ss st).dest.sample 1 j
        = st.dest.sample 1 j := by
  have hdest : (fillIter src looping false ls ll ss st).dest
      = (if 0 < min (if looping then ls + ll - st.position
              else (src.numSamples : Int) - st.position) st.samplesNeeded then
          copyChannels st.dest ss src src.numChannels st.position
            (min (if looping then ls + ll - st.position
              else (src.numSamples : Int) - st.position) st.samplesNeeded)
            (min st.dest.numChannels src.numChannels)
        else st.dest) := by
    simp only [fillIter]
    split_ifs <;> first | rfl | simp_all
  have key : ∀ T : Int,
      (copyChannels st.dest ss src src.numChannels st.position T
          (min st.dest.numChannels src.numChannels)).numChannels
        = st.dest.numChannels ∧
      ∀ j, (copyChannels st.dest ss src src.numChannels st.position T
          (min st.dest.numChannels src.numChannels)).sample 1 j
        = st.dest.sample 1 j := by
    intro T
    refine ⟨copyChannels_numChannels _ _ _ _ _ _ _, fun j => ?_⟩
    rw [hin]
    exact copyChannels_sample_ge st.dest ss src 1 st.position T
      (min st.dest.numChannels 1) 1 (by omega) j
  rw [hdest]
  split_ifs <;> first
    | exact ⟨(key _).1, fun j => (key _).2 j⟩
    | exact ⟨rfl, fun j => rfl⟩

/-- Fan-out preservation through the whole fill loop. -/
theorem fillLoop_fanout_eq (src : AudioBuffer) (looping : Bool)
    (ls ll : Int) (ss : Nat) (hin : src.numChannels = 1) :
    ∀ (fuel : Nat) (st st' : FillState),
      fillLoop src looping true ls ll ss fuel st = some st' →
      st.dest.numChannels = 2 →
      st'.dest.numChannels = 2 ∧
        ∀ j, st.dest.sample 0 j = st.dest.sample 1 j →
          st'.dest.sample 0 j = st'.dest.sample 1 j := by
  intro fuel
  induction fuel with
  | zero =>
    intro st st' h hout
    rw [fillLoop] at h
    by_cases hn : 0 < st.samplesNeeded
    · simp [hn] at h
    · rw [if_neg hn] at h
      cases h
      exact ⟨hout, fun j hold => hold⟩
  | succ f ih =>
    intro st st' h hout
    rw [fillLoop] at h
    by_cases hn : 0 < st.samplesNeeded
    · simp only [hn, if_true] at h
      obtain ⟨hch, heq⟩ := fillIter_fanout_eq src looping ls ll ss st hin hout
      obtain ⟨hch', heq'⟩ := ih _ _ h hch
      exact ⟨hch', fun j hold => heq' j (heq j hold)⟩
    · rw [if_neg hn] at h
      cases h
      exact ⟨hout, fun j hold => hold⟩

/-- Channel-1 constancy through the whole fill loop with fan-out
disabled. -/
theorem fillLoop_nofanout_ch1 (src : AudioBuffer) (looping : Bool)
    (ls ll : Int) (ss : Nat) (hin : src.numChannels = 1) :
    ∀ (fuel : Nat) (st st' : FillState),
      fillLoop src looping false ls ll ss fuel st = some st' →
      st'.dest.numChannels = st.dest.numChannels ∧
        ∀ j, st'.dest.sample 1 j = st.dest.sample 1 j := by
  intro fuel
  induction fuel with
  | zero =>
    intro st st' h
    rw [fillLoop] at h
    by_cases hn : 0 < st.samplesNeeded
    · simp [hn] at h
    · rw [if_neg hn] at h
      cases h
      exact ⟨rfl, fun j => rfl⟩
  | succ f ih =>
    intro st st' h
    rw [fillLoop] at h
    by_cases hn : 0 < st.samplesNeeded
    · simp only [hn, if_true] at h
      obtain ⟨hch, heq⟩ := fillIter_nofanout_ch1 src looping ls ll ss st hin
      obtain ⟨hch', heq'⟩ := ih _ _ h
      exact ⟨hch'.trans hch, fun j => (heq' j).trans (heq j)⟩
    · rw [if_neg hn] at h
      cases h
      exact ⟨rfl, fun j => rfl⟩

/-- With no samples left to fill, the loop returns at once, whatever the
fuel. -/
theorem fillLoop_done (src : AudioBuffer) (looping playAll : Bool)
    (ls ll : Int) (ss : Nat) (fuel : Nat) (st : FillState)
    (h : ¬ 0 < st.samplesNeeded) :
    fillLoop src looping playAll ls ll ss fuel st = some st := by
  cases fuel <;> rw [fillLoop] <;> simp [h]

/-- The initial clear writes zero at every in-range channel and active
sample. -/
theorem clear_sample_region (info : AudioSourceChannelInfo) (ch : Nat)
    (j : Int) (hch : ch < info.buffer.numChannels)
    (hj1 : (info.startSample : Int) ≤ j)
    (hj2 : j < (info.startSample : Int) + (info.numSamples : Int)) :
    (clearActiveBufferRegion info).sample ch j = 0 := by
  simp [clearActiveBufferRegion, hch, hj1, hj2]

/-- When the first copy run covers the whole request, the fill loop
performs exactly one copy, of all requested samples, from the current
position into the block start. -/
theorem fillLoop_single_run (src : AudioBuffer) (looping playAll : Bool)
    (ls ll : Int) (ss : Nat) (st : FillState) (fuel : Nat)
    (hneed : 0 < st.samplesNeeded) (hfuel : 1 ≤ fuel)
    (hrun : st.samplesNeeded ≤ (if looping then ls + ll - st.position
        else (src.numSamples : Int) - st.position)) :
    ∃ st', fillLoop src looping playAll ls ll ss fuel st = some st' ∧
      st'.dest = copyChannels st.dest ss src src.numChannels st.position
        st.samplesNeeded
        (if playAll then st.dest.numChannels
         else min st.dest.numChannels src.numChannels) := by
  have hmin : min (if looping then ls + ll - st.position
      else (src.numSamples : Int) - st.position) st.samplesNeeded
      = st.samplesNeeded := min_eq_right hrun
  have hiter : (fillIter src looping playAll ls ll ss st).dest
      = copyChannels st.dest ss src src.numChannels st.position
          st.samplesNeeded
          (if playAll then st.dest.numChannels
           else min st.dest.numChannels src.numChannels) ∧
      (fillIter src looping playAll ls ll ss st).samplesNeeded = 0 := by
    simp only [fillIter, hmin]
    rw [if_pos hneed]
    split_ifs <;> simp_all
  obtain ⟨f, rfl⟩ : ∃ f, fuel = f + 1 := ⟨fuel - 1, by omega⟩
  rw [fillLoop, if_pos hneed]
  exact ⟨fillIter src looping playAll ls ll ss st,
    fillLoop_done _ _ _ _ _ _ _ _ (by rw [hiter.2]; omega), hiter.1⟩

/-- **C5.**  Mono-to-stereo channel routing of `getNextAudioBlock`.  With
fan-out enabled, both output channels hold identical data (each output
channel `i` is filled from input channel `i % 1 = 0`); with fan-out
disabled, output channel 1 keeps the zeros of the initial clear; and
whenever a single copy run covers the whole request, output channel 0
holds the input-channel-0 data starting at the read position. -/
theorem C5_mono_to_stereo (s : AudioBufferSource)
    (info : AudioSourceChannelInfo) (j : Int)
    (hin : s.buffer.numChannels = 1)
    (hout : info.buffer.numChannels = 2)
    (hj1 : (info.startSample : Int) ≤ j)
    (hj2 : j < (info.startSample : Int) + (info.numSamples : Int)) :
    (s.playAcrossAllChannels = true →
        (getNextAudioBlock s info).dest.sample 0 j
          = (getNextAudioBlock s info).dest.sample 1 j) ∧
      (s.playAcrossAllChannels = false →
        (getNextAudioBlock s info).dest.sample 1 j = 0) ∧
      (0 < info.numSamples →
        (info.numSamples : Int)
            ≤ (if s.looping then s.loopStartPos + s.loopLen
               else (s.buffer.numSamples : Int)) - s.position →
        (getNextAudioBlock s info).dest.sample 0 j
          = s.buffer.sample 0 (s.position + (j - (info.startSample : Int)))) := by
  have hclear2 : (clearActiveBufferRegion info).numChannels = 2 := hout
  refine ⟨?_, ?_, ?_⟩
  · intro hpa
    obtain ⟨stF, hF, hEq⟩ := getNextAudioBlock_eq s info
    rw [hpa] at hF
    have h := fillLoop_fanout_eq s.buffer s.looping s.loopStartPos s.loopLen
      info.startSample hin info.numSamples _ _ hF hclear2
    rw [hEq]
    exact h.2 j (by
      rw [clear_sample_region info 0 j (by omega) hj1 hj2,
        clear_sample_region info 1 j (by omega) hj1 hj2])
  · intro hpa
    obtain ⟨stF, hF, hEq⟩ := getNextAudioBlock_eq s info
    rw [hpa] at hF
    have h := fillLoop_nofanout_ch1 s.buffer s.looping s.loopStartPos
      s.loopLen info.startSample hin info.numSamples _ _ hF
    rw [hEq]
    rw [h.2 j]
    exact clear_sample_region info 1 j (by omega) hj1 hj2
  · intro hn hrun
    have hrun' : (info.numSamples : Int)
        ≤ (if s.looping then s.loopStartPos + s.loopLen - s.position
           else (s.buffer.numSamples : Int) - s.position) := by
      split_ifs at hrun ⊢ <;> omega
    obtain ⟨st', hF, hdest⟩ := fillLoop_single_run s.buffer s.looping
      s.playAcrossAllChannels s.loopStartPos s.loopLen info.startSample
      { dest := clearActiveBufferRegion info, position := s.position,
        samplesNeeded := (info.numSamples : Int), reads := [] }
      info.numSamples
      (by show (0 : Int) < (info.numSamples : Int); exact_mod_cast hn) hn
      (by simpa using hrun')
    have hgd : (getNextAudioBlock s info).dest = st'.dest := by
      simp [getNextAudioBlock, hF]
    rw [hgd, hdest]
    simp only [hin]
    have hk : 1 ≤ (if s.playAcrossAllChannels
        then (clearActiveBufferRegion info).numChannels
        else min (clearActiveBufferRegion info).numChannels 1) := by
      rw [hclear2]
      split_ifs <;> omega
    have := copyChannels_sample_zero (clearActiveBufferRegion info)
      info.startSample s.buffer s.position (info.numSamples : Int) j
      (if s.playAcrossAllChannels
        then (clearActiveBufferRegion info).numChannels
        else min (clearActiveBufferRegion info).numChannels 1)
      hk hj1 hj2
    simpa using this

/-- **C5, witness** on the fan-out mono source `exSourceFan` into the
stereo block `exInfoStereo8`, at destination sample `j = 2`. -/
theorem C5_witness :
    (exSourceFan.buffer.numChannels = 1 ∧
        exInfoStereo8.buffer.numChannels = 2 ∧
        (exInfoStereo8.startSample : Int) ≤ 2 ∧
        (2 : Int) < (exInfoStereo8.startSample : Int)
          + (exInfoStereo8.numSamples : Int)) ∧
      ((exSourceFan.playAcrossAllChannels = true →
          (getNextAudioBlock exSourceFan exInfoStereo8).dest.sample 0 2
            = (getNextAudioBlock exSourceFan exInfoStereo8).dest.sample 1 2) ∧
        (exSourceFan.playAcrossAllChannels = false →
          (getNextAudioBlock exSourceFan exInfoStereo8).dest.sample 1 2 = 0) ∧
        (0 < exInfoStereo8.numSamples →
          (exInfoStereo8.numSamples : Int)
              ≤ (if exSourceFan.looping
                 then exSourceFan.loopStartPos + exSourceFan.loopLen
                 else (exSourceFan.buffer.numSamples : Int))
                - exSourceFan.position →
          (getNextAudioBlock exSourceFan exInfoStereo8).dest.sample 0 2
            = exSourceFan.buffer.sample 0 (exSourceFan.position
              + (2 - (exInfoStereo8.startSample : Int))))) :=
  ⟨⟨rfl, rfl, by decide, by decide⟩,
    C5_mono_to_stereo exSourceFan exInfoStereo8 2 rfl rfl
      (by decide) (by decide)⟩

/-- **C3, counterexample.**  The claim promises `0 ≤ position ≤ totalFrames`
for *every* requested position, including negative ones.  On a looping
source of length 4, requesting position `-1` stores `-1`: C++ `%` keeps
the dividend's sign and the code has no lower clamp (`jmin` only). -/
theorem C3_counterexample :
    (exSourceLooping.setNextReadPosition (-1)).position = -1 ∧
      ¬ (0 ≤ (exSourceLooping.setNextReadPosition (-1)).position ∧
          (exSourceLooping.setNextReadPosition (-1)).position
            ≤ (exSourceLooping.buffer.numSamples : Int)) := by
  constructor
  · rfl
  · decide

/-- **C3** (amended).  For every *non-negative* requested position `pos`
on a nonempty buffer, `setNextReadPosition` stores a position in
`[0, totalFrames]`; when looping it first reduces `pos` modulo the whole
buffer length (`totalFrames`, not the configured loop region), so the
stored position is then even strictly below `totalFrames`.  Negative
positions are outside the code's contract (it asserts `pos ≥ 0`) and are
stored without a lower clamp, as `C3_counterexample` shows. -/
theorem C3_setNextReadPosition_clamps (s : AudioBufferSource) (pos : Int)
    (hpos : 0 ≤ pos) (hL : 0 < s.buffer.numSamples) :
    0 ≤ (s.setNextReadPosition pos).position ∧
      (s.setNextReadPosition pos).position ≤ (s.buffer.numSamples : Int) ∧
      (s.looping = true →
        (s.setNextReadPosition pos).position
            = pos.tmod (s.buffer.numSamples : Int) ∧
          (s.setNextReadPosition pos).position
            < (s.buffer.numSamples : Int)) := by
  have hLpos : (0 : Int) < (s.buffer.numSamples : Int) := by exact_mod_cast hL
  have hnn : 0 ≤ pos.tmod (s.buffer.numSamples : Int) :=
    Int.tmod_nonneg _ hpos
  have hlt : pos.tmod (s.buffer.numSamples : Int)
      < (s.buffer.numSamples : Int) := Int.tmod_lt_of_pos _ hLpos
  simp only [AudioBufferSource.setNextReadPosition]
  cases hl : s.looping <;> simp [hl] <;> omega

/-- **C3, witness** for the amended theorem at `pos = 7` on
`exSourceLooping` (length 4): the stored position is `7 tmod 4 = 3`. -/
theorem C3_witness :
    (0 ≤ (7 : Int) ∧ 0 < exSourceLooping.buffer.numSamples) ∧
      (0 ≤ (exSourceLooping.setNextReadPosition 7).position ∧
        (exSourceLooping.setNextReadPosition 7).position
          ≤ (exSourceLooping.buffer.numSamples : Int) ∧
        (exSourceLooping.looping = true →
          (exSourceLooping.setNextReadPosition 7).position
              = (7 : Int).tmod (exSourceLooping.buffer.numSamples : Int) ∧
            (exSourceLooping.setNextReadPosition 7).position
              < (exSourceLooping.buffer.numSamples : Int))) :=
  ⟨⟨by decide, by decide⟩,
    C3_setNextReadPosition_clamps exSourceLooping 7 (by decide) (by decide)⟩

/-- **C4.**  After any first `setLoopRange (a, b)` followed by any further
sequence of `setLoopRange` calls on a buffer of length `L ≥ 1`, the stored
region satisfies `0 ≤ loopStart ≤ L-1` and `1 ≤ loopLength ≤ L - loopStart`
(hence `loopStart + loopLength ≤ L`): every call clamps and never
rejects. -/
theorem C4_setLoopRange_clamps (s : AudioBufferSource) (a b : Int)
    (calls : List (Int × Int)) (hL : 1 ≤ s.buffer.numSamples) :
    loopRangeInv
      (calls.foldl (fun t p => t.setLoopRange p.1 p.2) (s.setLoopRange a b)) ∧
      (calls.foldl (fun t p => t.setLoopRange p.1 p.2)
            (s.setLoopRange a b)).loopStartPos
          + (calls.foldl (fun t p => t.setLoopRange p.1 p.2)
            (s.setLoopRange a b)).loopLen
        ≤ ((calls.foldl (fun t p => t.setLoopRange p.1 p.2)
            (s.setLoopRange a b)).buffer.numSamples : Int) := by
  have main : ∀ (l : List (Int × Int)) (t : AudioBufferSource) (a b : Int),
      1 ≤ t.buffer.numSamples →
      loopRangeInv (l.foldl (fun u p => u.setLoopRange p.1 p.2)
        (t.setLoopRange a b)) ∧
      (l.foldl (fun u p => u.setLoopRange p.1 p.2)
        (t.setLoopRange a b)).buffer = t.buffer := by
    intro l
    induction l with
    | nil =>
      intro t a b ht
      exact ⟨setLoopRange_inv t a b ht, rfl⟩
    | cons p rest ih =>
      intro t a b ht
      have hbuf : (t.setLoopRange a b).buffer = t.buffer := rfl
      have := ih (t.setLoopRange a b) p.1 p.2 (by rw [hbuf]; exact ht)
      simpa [hbuf] using this
  obtain ⟨hinv, hbuf⟩ := main calls s a b hL
  refine ⟨hinv, ?_⟩
  rw [hbuf]
  rcases hinv with ⟨h1, h2, h3, h4⟩
  rw [hbuf] at h4
  omega

/-- **C4, witness**: on `exSourceLooping` (length 4), the call sequence
`setLoopRange (-5) 100` then `setLoopRange 2 50` yields a region
satisfying the invariant. -/
theorem C4_witness :
    1 ≤ exSourceLooping.buffer.numSamples ∧
      (loopRangeInv
        ([((2 : Int), (50 : Int))].foldl (fun t p => t.setLoopRange p.1 p.2)
          (exSourceLooping.setLoopRange (-5) 100)) ∧
        ([((2 : Int), (50 : Int))].foldl (fun t p => t.setLoopRange p.1 p.2)
              (exSourceLooping.setLoopRange (-5) 100)).loopStartPos
            + ([((2 : Int), (50 : Int))].foldl
              (fun t p => t.setLoopRange p.1 p.2)
              (exSourceLooping.setLoopRange (-5) 100)).loopLen
          ≤ (([((2 : Int), (50 : Int))].foldl
              (fun t p => t.setLoopRange p.1 p.2)
              (exSourceLooping.setLoopRange (-5) 100)).buffer.numSamples
            : Int)) :=
  ⟨by decide,
    C4_setLoopRange_clamps exSourceLooping (-5) 100 [(2, 50)] (by decide)⟩

/-- **C10.**  `setLoopRange` changes only the stored loop start and loop
length: position, looping flag, fan-out flag and buffer are untouched.
In particular (second conjunct), shrinking the loop region of
`exSourcePos8` (looping, position 8) to `[0, 4)` leaves the read position
8 outside the new region. -/
theorem C10_setLoopRange_frame :
    (∀ (s : AudioBufferSource) (a b : Int),
        (s.setLoopRange a b).position = s.position ∧
          (s.setLoopRange a b).looping = s.looping ∧
          (s.setLoopRange a b).playAcrossAllChannels
              = s.playAcrossAllChannels ∧
          (s.setLoopRange a b).buffer = s.buffer) ∧
      ((exSourcePos8.setLoopRange 0 4).position = 8 ∧
        (exSourcePos8.setLoopRange 0 4).looping = true ∧
        ¬ ((exSourcePos8.setLoopRange 0 4).loopStartPos
              ≤ (exSourcePos8.setLoopRange 0 4).position ∧
            (exSourcePos8.setLoopRange 0 4).position
              < (exSourcePos8.setLoopRange 0 4).loopStartPos
                + (exSourcePos8.setLoopRange 0 4).loopLen)) := by
  refine ⟨fun s a b => ⟨rfl, rfl, rfl, rfl⟩, rfl, rfl, ?_⟩
  decide

/-- **C9.**  For every source state satisfying the loop-range invariant
and every requested block, the `while (samplesNeeded > 0)` loop of
`getNextAudioBlock` completes: run with fuel equal to the requested
sample count it returns a final state instead of exhausting the fuel,
because each iteration either decreases `samplesNeeded` by at least one
or sets it to zero. -/
theorem C9_getNextAudioBlock_terminates (s : AudioBufferSource)
    (info : AudioSourceChannelInfo) (_h1 : 1 ≤ s.loopLen)
    (_h2 : s.loopStartPos + s.loopLen ≤ (s.buffer.numSamples : Int)) :
    (fillLoop s.buffer s.looping s.playAcrossAllChannels s.loopStartPos
        s.loopLen info.startSample info.numSamples
        { dest := clearActiveBufferRegion info, position := s.position,
          samplesNeeded := (info.numSamples : Int), reads := [] }).isSome :=
  fillLoop_total _ _ _ _ _ _ _ _ (by simp)

/-- **C9, witness** on `exSourceLooping` with an 8-sample request into a
stereo block. -/
theorem C9_witness :
    (1 ≤ exSourceLooping.loopLen ∧
        exSourceLooping.loopStartPos + exSourceLooping.loopLen
          ≤ (exSourceLooping.buffer.numSamples : Int)) ∧
      (fillLoop exSourceLooping.buffer exSourceLooping.looping
          exSourceLooping.playAcrossAllChannels exSourceLooping.loopStartPos
          exSourceLooping.loopLen exInfoStereo8.startSample
          exInfoStereo8.numSamples
          { dest := clearActiveBufferRegion exInfoStereo8
            position := exSourceLooping.position
            samplesNeeded := (exInfoStereo8.numSamples : Int)
            reads := [] }).isSome :=
  ⟨⟨by decide, by decide⟩,
    C9_getNextAudioBlock_terminates exSourceLooping exInfoStereo8
      (by decide) (by decide)⟩

/-! ### Claims about the session lifecycle, the facade, and teardown -/

/-- **C6.**  The first poll tick that sees the transport not playing
moves an Active session to Removed: its mixer registration is gone and
the session object is destroyed.  No transition other than a poll tick
or the manager's destruction changes a session at all — audio-callback
pulls and unrelated control activity leave an Active session registered
untouched. -/
theorem C6_session_self_removal :
    (∀ s : Session, s.phase = SessionPhase.Active →
        sessionStep s (SessionEvent.pollTick false)
          = { phase := SessionPhase.Removed, inMixer := false,
              destroyed := true }) ∧
      (∀ (s : Session) (e : SessionEvent),
        e = SessionEvent.audioBlock ∨ e = SessionEvent.otherControl →
        sessionStep s e = s) ∧
      (∀ s : Session,
        sessionStep s SessionEvent.managerDestroyed
          = { phase := SessionPhase.Removed, inMixer := false,
              destroyed := true }) := by
  refine ⟨fun s hs => ?_, fun s e he => ?_, fun s => rfl⟩
  · simp [sessionStep, hs]
  · rcases he with he | he <;> subst he <;> rfl

/-- **C7.**  Every `play` overload is a no-op on degenerate input: null
bytes or zero length, null reader, null source (where requested deletion
merely deletes a null pointer and registers nothing), and a nonexistent
file all leave the manager's state — mixer registrations, cached sample
rate and block size — unchanged. -/
theorem C7_degenerate_play_noops (st : SoundPlayerState) (size : Nat)
    (r : Option Reader) (del : Bool) (rate : Rat) :
    playResource st false size r = st ∧
      playResource st true 0 r = st ∧
      playReader st none del = st ∧
      playSource st none del rate = st ∧
      playFile st false r = st := by
  refine ⟨?_, ?_, rfl, rfl, ?_⟩ <;> simp [playResource, playFile]

/-- **C8.**  On the owning `play` path the original source is destroyed
exactly once across the two wrapper layers (session, then owning
transport), the wrapped transport is destroyed exactly once, and the
source is detached from the transport (`setSource (nullptr)`) strictly
before it is destroyed. -/
theorem C8_ownership_exactly_once :
    playTeardownTrace.count TeardownEvent.destroySource = 1 ∧
      playTeardownTrace.count TeardownEvent.destroyTransport = 1 ∧
      playTeardownTrace.indexOf TeardownEvent.detachTransportSource
        < playTeardownTrace.indexOf TeardownEvent.destroySource := by
  decide

end SoundPlayerModel
